import Mathlib

/-!
Verification development for the TextLexer repository: a shallow embedding of
the canonical lexical scanner (the position-tracking lexer draft with bitwise
operators) and of the canonical recursive-descent parser (the brace-based,
feature-complete draft), together with theorems settling the frozen claims.

Loops of the C++ code are embedded as fuel-indexed structural recursions; the
wrapper functions pass fuel `source.length + 1`, which bounds the number of
loop iterations because every iteration strictly advances the scan position
while the position never exceeds the source length.  All definitions are
executable, so concrete runs are settled by kernel evaluation.
-/

namespace TextLexer

namespace Lex

/-- Token kinds of the scanner (`enum TokenType` of the lexer file). -/
inductive TokenType where
  | TOKEN_ID
  | TOKEN_NUM
  | TOKEN_FLOAT
  | TOKEN_BOOL
  | TOKEN_KEYWORD
  | TOKEN_OP
  | TOKEN_SEP
  | TOKEN_BIT_OP
  | TOKEN_ERROR
deriving DecidableEq, Repr

export TokenType (TOKEN_ID TOKEN_NUM TOKEN_FLOAT TOKEN_BOOL TOKEN_KEYWORD
  TOKEN_OP TOKEN_SEP TOKEN_BIT_OP TOKEN_ERROR)

/-- `struct Token`: kind, lexeme text, line and column.  The C++ aggregate
initializations `{TOKEN_ERROR, ""}` and `{TOKEN_ERROR, msg}` leave `line` and
`column` value-initialized to `0`; they are written explicitly here. -/
structure Token where
  type : TokenType
  value : String
  line : Nat
  column : Nat
deriving DecidableEq, Repr

/-- The keyword table `keywords` (maps to `TOKEN_KEYWORD`, with `true` and
`false` mapping to `TOKEN_BOOL`). -/
def keywordLookup (v : String) : Option TokenType :=
  if v = "int" ∨ v = "float" ∨ v = "bool" ∨ v = "if" ∨ v = "else" ∨
     v = "while" ∨ v = "for" ∨ v = "read" ∨ v = "write" then
    some TOKEN_KEYWORD
  else if v = "true" ∨ v = "false" then
    some TOKEN_BOOL
  else
    none

/-- Keys of the `operators` table (every value is `TOKEN_OP`). -/
def operatorKeys : List String :=
  ["+", "-", "*", "/", "=", "&", "|", "+=", "-=", "*=", "/=", "==", "!=",
   "<", "<=", ">", ">=", "&&", "||", "!", "++", "--"]

/-- Keys of the `separators` table (every value is `TOKEN_SEP`); note the
source lists the two-character key `[]` rather than `[`. -/
def separatorKeys : List String :=
  [";", ",", "(", ")", "\x7b", "\x7d", "[]", "]", ":"]

/-- Keys of the `bit_operators` table (every value is `TOKEN_BIT_OP`). -/
def bitOperatorKeys : List String :=
  ["&", "|", "~", "^", "<<", ">>"]

/-- The NUL character returned by `peek` past the end of input. -/
def nul : Char := Char.ofNat 0

/-- C `isdigit` over the ASCII codes the scanner works with. -/
def isdigit (c : Char) : Bool := 48 ≤ c.toNat && c.toNat ≤ 57

/-- C `isalpha` over ASCII. -/
def isalpha (c : Char) : Bool :=
  (65 ≤ c.toNat && c.toNat ≤ 90) || (97 ≤ c.toNat && c.toNat ≤ 122)

/-- C `isalnum` over ASCII. -/
def isalnum (c : Char) : Bool := isdigit c || isalpha c

/-- C `isspace` over ASCII: space, tab, newline, vertical tab, form feed,
carriage return. -/
def isspace (c : Char) : Bool :=
  c.toNat = 32 || c.toNat = 9 || c.toNat = 10 || c.toNat = 11 ||
  c.toNat = 12 || c.toNat = 13

/-- The scanner state: immutable source buffer plus cursor (`pos`, `line`,
`column`). -/
structure LexState where
  source : List Char
  pos : Nat
  line : Nat
  column : Nat
deriving DecidableEq, Repr

/-- `peek()`: the character at `pos`, or NUL at or past the end. -/
def peek (s : LexState) : Char := s.source.getD s.pos nul

/-- `source[n]` as used with the one-character lookahead `source[pos + 1]`
(reads NUL at the terminating position). -/
def charAt (s : LexState) (n : Nat) : Char := s.source.getD n nul

/-- `advance()`: consume one character, maintaining `line`/`column`; at the
end of input it returns NUL without moving `pos` (and still bumps `column`,
exactly as the C++ does). -/
def advance (s : LexState) : Char × LexState :=
  let c := peek s
  let s₁ := if s.pos < s.source.length then { s with pos := s.pos + 1 } else s
  if c = '\n' then
    (c, { s₁ with line := s₁.line + 1, column := 1 })
  else
    (c, { s₁ with column := s₁.column + 1 })

/-- One consumption loop `while (p(peek())) value += advance();`, with fuel
bounding the iteration count. -/
def consumeWhileF (p : Char → Bool) : Nat → LexState → String → String × LexState
  | 0, s, acc => (acc, s)
  | fuel + 1, s, acc =>
    if p (peek s) then
      consumeWhileF p fuel (advance s).2 (acc.push (advance s).1)
    else
      (acc, s)

/-- The line-comment loop of `skipWhitespace`:
`while (peek() != '\n' && peek() != '\0') advance();`. -/
def skipLineCommentF : Nat → LexState → LexState
  | 0, s => s
  | fuel + 1, s =>
    if peek s ≠ '\n' ∧ peek s ≠ nul then
      skipLineCommentF fuel (advance s).2
    else
      s

/-- The block-comment body loop of `skipWhitespace`; the `Bool` is `false`
when the loop hit end of input (the C++ `return;` that abandons
`skipWhitespace` altogether on an unterminated comment). -/
def skipBlockBodyF : Nat → LexState → Bool × LexState
  | 0, s => (false, s)
  | fuel + 1, s =>
    if peek s = '*' ∧ charAt s (s.pos + 1) = '/' then
      (true, s)
    else if peek s = nul then
      (false, s)
    else
      skipBlockBodyF fuel (advance s).2

/-- The outer loop of `skipWhitespace()`: skip `#`/`//` line comments,
`/* ... */` block comments and whitespace until a token start (or end of a
source with an unterminated block comment). -/
def skipWhitespaceF : Nat → LexState → LexState
  | 0, s => s
  | fuel + 1, s =>
    if peek s = '#' ∨ (peek s = '/' ∧ charAt s (s.pos + 1) = '/') then
      skipWhitespaceF fuel (skipLineCommentF (s.source.length + 1) s)
    else if peek s = '/' ∧ charAt s (s.pos + 1) = '*' then
      let s₁ := (advance (advance s).2).2
      let r := skipBlockBodyF (s₁.source.length + 1) s₁
      if r.1 then skipWhitespaceF fuel (advance (advance r.2).2).2 else r.2
    else if isspace (peek s) then
      skipWhitespaceF fuel (advance s).2
    else
      s

/-- `skipWhitespace()` with always-sufficient fuel. -/
def skipWhitespace (s : LexState) : LexState :=
  skipWhitespaceF (s.source.length + 1) s

/-- `makeToken`: position is the cursor after the lexeme, with the column
backed up by the lexeme length (tokens never span lines). -/
def makeToken (s : LexState) (t : TokenType) (v : String) : Token :=
  { type := t, value := v, line := s.line, column := s.column - v.length }

/-- `makeError`: the message gains an ` at line L:C` suffix and the recorded
position is the cursor where the error was noticed (after the lexeme). -/
def makeError (s : LexState) (msg : String) : Token :=
  { type := TOKEN_ERROR,
    value := msg ++ " at line " ++ toString s.line ++ ":" ++ toString s.column,
    line := s.line, column := s.column }

/-- `recognizeIdOrKeyword()`: a digit-led run is an illegal identifier;
otherwise maximal munch over alphanumerics and `_`, then keyword lookup. -/
def recognizeIdOrKeyword (s : LexState) : Token × LexState :=
  if isdigit (peek s) then
    let r := consumeWhileF (fun c => isdigit c || isalpha c) (s.source.length + 1) s ""
    (makeError r.2 ("非法标识符（不能以数字开头）: " ++ r.1), r.2)
  else
    let r := consumeWhileF (fun c => isalnum c || c = '_') (s.source.length + 1) s ""
    match keywordLookup r.1 with
    | some t => (makeToken r.2 t r.1, r.2)
    | none => (makeToken r.2 TOKEN_ID r.1, r.2)

/-- The fractional-part step of `recognizeNumber`: right after the decimal
point, a missing digit marks the lexeme illegal, otherwise the digit run is
consumed; returns (value, isError, state). -/
def numberFracPhase (va : String) (sa : LexState) : String × Bool × LexState :=
  if !(isdigit (peek sa)) then
    (va, true, sa)
  else
    let rb := consumeWhileF isdigit (sa.source.length + 1) sa va
    (rb.1, false, rb.2)

/-- The multiple-decimal-point check of `recognizeNumber`: on the state and
value left by the fractional part, a second `.` marks the lexeme illegal and
is consumed together with any further digits; returns
(value, hasDecimalPoint, isError, state). -/
def numberDotTail (frac : String × Bool × LexState) :
    String × Bool × Bool × LexState :=
  if peek frac.2.2 = '.' then
    let sc := (advance frac.2.2).2
    let vc := frac.1.push (advance frac.2.2).1
    let rd := consumeWhileF isdigit (sc.source.length + 1) sc vc
    (rd.1, true, true, rd.2)
  else
    (frac.1, true, frac.2.1, frac.2.2)

/-- The decimal-point step of `recognizeNumber`: consume `.`, the fractional
part, and run the multiple-decimal-point check; returns
(value, hasDecimalPoint, isError, state). -/
def numberDotPhase (value : String) (s₁ : LexState) :
    String × Bool × Bool × LexState :=
  if peek s₁ = '.' then
    numberDotTail (numberFracPhase (value.push (advance s₁).1) (advance s₁).2)
  else
    (value, false, false, s₁)

/-- The trailing-suffix step of `recognizeNumber`: an alphabetic character or
underscore right after the numeric run marks the lexeme illegal and the whole
alphanumeric run is consumed into it; returns (value, isError, state). -/
def numberSuffixPhase (value : String) (isError : Bool) (s₂ : LexState) :
    String × Bool × LexState :=
  if isalpha (peek s₂) ∨ peek s₂ = '_' then
    let re := consumeWhileF (fun c => isalnum c || c = '_')
      (s₂.source.length + 1) s₂ value
    (re.1, true, re.2)
  else
    (value, isError, s₂)

/-- `recognizeNumber()`: integer part, optional decimal point requiring a
digit after it, an extra decimal point or a trailing alphanumeric run turning
the whole lexeme into one error token. -/
def recognizeNumber (s : LexState) : Token × LexState :=
  let r₁ := consumeWhileF isdigit (s.source.length + 1) s ""
  let mid := numberDotPhase r₁.1 r₁.2
  let fin := numberSuffixPhase mid.1 mid.2.2.1 mid.2.2.2
  if fin.2.1 then
    (makeError fin.2.2 ("非法数字格式: " ++ fin.1), fin.2.2)
  else
    (makeToken fin.2.2 (if mid.2.1 then TOKEN_FLOAT else TOKEN_NUM) fin.1, fin.2.2)

/-- `recognizeOpOrSep()`: consume one character, try the two-character
lookahead against the combined operator and bitwise tables, else fall back to
the one-character operator, bitwise, and separator tables in that order. -/
def recognizeOpOrSep (s : LexState) : Token × LexState :=
  let s₁ := (advance s).2
  let value := String.singleton (advance s).1
  let double_op := value.push (peek s₁)
  if double_op ∈ operatorKeys ∨ double_op ∈ bitOperatorKeys then
    let s₂ := (advance s₁).2
    let value₂ := value.push (advance s₁).1
    (makeToken s₂ (if double_op ∈ operatorKeys then TOKEN_OP else TOKEN_BIT_OP)
      value₂, s₂)
  else if value ∈ operatorKeys then
    (makeToken s₁ TOKEN_OP value, s₁)
  else if value ∈ bitOperatorKeys then
    (makeToken s₁ TOKEN_BIT_OP value, s₁)
  else if value ∈ separatorKeys then
    (makeToken s₁ TOKEN_SEP value, s₁)
  else
    (makeError s₁ ("无法识别的符号: " ++ value), s₁)

/-- `getNextToken()`: skip whitespace and comments, then dispatch on the
lookahead character; NUL yields the empty-lexeme end sentinel, an
undispatchable character an illegal-character error (with position fields
left `0`, as in the C++ aggregate). -/
def getNextToken (s₀ : LexState) : Token × LexState :=
  let s := skipWhitespace s₀
  let ch := peek s
  if isalpha ch || ch = '_' then
    recognizeIdOrKeyword s
  else if isdigit ch then
    recognizeNumber s
  else if String.singleton ch ∈ operatorKeys ∨ String.singleton ch ∈ separatorKeys then
    recognizeOpOrSep s
  else if ch = nul then
    (⟨TOKEN_ERROR, "", 0, 0⟩, s)
  else
    let s' := (advance s).2
    (⟨TOKEN_ERROR, "非法字符: " ++ String.singleton ch, 0, 0⟩, s')

/-- The driver loop of `main`: collect tokens until the empty-lexeme end
sentinel.  Each emitted token is annotated with the index of its first
character (the scan position after whitespace skipping, where recognition of
the token began). -/
def tokenizeAuxF : Nat → LexState → List (Nat × Token)
  | 0, _ => []
  | fuel + 1, s =>
    let start := (skipWhitespace s).pos
    let r := getNextToken s
    if r.1.type = TOKEN_ERROR ∧ r.1.value = "" then
      []
    else
      (start, r.1) :: tokenizeAuxF fuel r.2

/-- Scan a whole source, emitting each token with its start index. -/
def tokenize (src : List Char) : List (Nat × Token) :=
  tokenizeAuxF (src.length + 1) ⟨src, 0, 1, 1⟩

/-- One step of line/column bookkeeping for a consumed character. -/
def lcStep (lc : Nat × Nat) (c : Char) : Nat × Nat :=
  if c = '\n' then (lc.1 + 1, 1) else (lc.1, lc.2 + 1)

/-- Ground truth for positions: the 1-based line and column of the character
at index `n` of the source, computed independently of the scanner's cursor. -/
def lineColAt (src : List Char) (n : Nat) : Nat × Nat :=
  (src.take n).foldl lcStep (1, 1)

/-- A scanner state is well-formed when its cursor agrees with the ground
truth position of its index. -/
def WF (s : LexState) : Prop :=
  (s.line, s.column) = lineColAt s.source s.pos

/-- Verification vocabulary: `s'` results from `s` by consuming `d`
characters of the same line — the bookkeeping pattern of every in-token
consumption (no token lexeme contains a newline). -/
def Tracks (s s' : LexState) (d : Nat) : Prop :=
  s'.source = s.source ∧ s'.line = s.line ∧ s'.pos = s.pos + d ∧
  s'.column = s.column + d ∧ (WF s → WF s')

/-- Verification vocabulary: `s'` results from `s` by consuming forward
(possibly across newlines) — the bookkeeping pattern of whitespace and
comment skipping. -/
def Skips (s s' : LexState) : Prop :=
  s'.source = s.source ∧ s.pos ≤ s'.pos ∧ (WF s → WF s')

end Lex

namespace Parse

/-- Token kinds as redeclared by the parser files (`enum TokenType` without
the bitwise kind). -/
inductive TokenType where
  | TOKEN_ID
  | TOKEN_NUM
  | TOKEN_FLOAT
  | TOKEN_BOOL
  | TOKEN_KEYWORD
  | TOKEN_OP
  | TOKEN_SEP
  | TOKEN_ERROR
deriving DecidableEq, Repr

export TokenType (TOKEN_ID TOKEN_NUM TOKEN_FLOAT TOKEN_BOOL TOKEN_KEYWORD
  TOKEN_OP TOKEN_SEP TOKEN_ERROR)

/-- The parser-side token: kind and lexeme text only. -/
structure Token where
  type : TokenType
  value : String
deriving DecidableEq, Repr

/-- The out-of-range token `{TOKEN_ERROR, ""}` returned by `peek` and
`previous` past the ends of the vector; also the stream's end sentinel. -/
def sentinel : Token := ⟨TOKEN_ERROR, ""⟩

/-- AST node kinds (`enum NodeType`). -/
inductive NodeType where
  | NODE_EXPR
  | NODE_BOOL
  | NODE_DECLS
  | NODE_STMTS
  | NODE_ASSIGN
  | NODE_IF
  | NODE_WHILE
  | NODE_FOR
  | NODE_READ
  | NODE_WRITE
  | NODE_BLOCK
  | NODE_OP
  | NODE_ID
  | NODE_NUM
  | NODE_FLOAT
  | NODE_BOOLVAL
  | NODE_TYPE
  | NODE_LIST
deriving DecidableEq, Repr

export NodeType (NODE_EXPR NODE_BOOL NODE_DECLS NODE_STMTS NODE_ASSIGN
  NODE_IF NODE_WHILE NODE_FOR NODE_READ NODE_WRITE NODE_BLOCK NODE_OP NODE_ID
  NODE_NUM NODE_FLOAT NODE_BOOLVAL NODE_TYPE NODE_LIST)

/-- `struct TreeNode`: a kind tag, a literal value, and an ordered child
vector whose entries may be null pointers (`none`). -/
inductive TreeNode where
  | mk (type : NodeType) (value : String) (children : List (Option TreeNode))
deriving Repr

/-- Parser state: the immutable token vector and the `current` index. -/
structure PState where
  tokens : List Token
  current : Nat
deriving Repr

/-- `peek()`: current token, or the `{TOKEN_ERROR, ""}` sentinel at or past
the end of the vector. -/
def peek (p : PState) : Token :=
  if p.current < p.tokens.length then p.tokens.getD p.current sentinel
  else sentinel

/-- `previous()`: the token before `current`, or the sentinel at index 0. -/
def previous (p : PState) : Token :=
  if p.current > 0 then p.tokens.getD (p.current - 1) sentinel
  else sentinel

/-- `isAtEnd()`: the current lookahead is the empty-lexeme error sentinel. -/
def isAtEnd (p : PState) : Bool :=
  (peek p).type = TOKEN_ERROR && (peek p).value = ""

/-- `advance()`: step the index unless at the end; returns the token just
passed (the new state's `previous()`). -/
def advance (p : PState) : Token × PState :=
  let p' := if !(isAtEnd p) then { p with current := p.current + 1 } else p
  (previous p', p')

/-- `check(type)` — false at the end. -/
def checkT (p : PState) (t : TokenType) : Bool :=
  if isAtEnd p then false else (peek p).type = t

/-- `check(type, value)` — false at the end. -/
def checkTV (p : PState) (t : TokenType) (v : String) : Bool :=
  if isAtEnd p then false else (peek p).type = t && (peek p).value = v

/-- `match(type)`: advance past a token of the given kind if present. -/
def matchT (p : PState) (t : TokenType) : Option PState :=
  if checkT p t then some (advance p).2 else none

/-- `match(type, value)`: advance past the given token if present. -/
def matchTV (p : PState) (t : TokenType) (v : String) : Option PState :=
  if checkTV p t v then some (advance p).2 else none

/-- `error(message)`: the fatal diagnostic text printed before `exit(1)`. -/
def errMsg (p : PState) (message : String) : String :=
  "Syntax error: " ++ message ++ " at token: " ++ (peek p).value

/-- The distinguished result of exhausting fuel; never produced on the runs
appearing in the theorems below (their messages all begin `Syntax error:`). -/
def fuelMsg : String := "fuel exhausted"

/-- `consume(type, message)`. -/
def consumeT (p : PState) (t : TokenType) (message : String) :
    Except String PState :=
  if checkT p t then .ok (advance p).2 else .error (errMsg p message)

/-- `consume(type, value, message)` — the diagnostic carries the actual
lexeme. -/
def consumeTV (p : PState) (t : TokenType) (v : String) (message : String) :
    Except String PState :=
  if checkTV p t v then .ok (advance p).2
  else .error (errMsg p (message ++ " (Actual: " ++ (peek p).value ++ ")"))

/-- The operator-precedence table of `parseArithmeticExpr`; the C++
`unordered_map` `operator[]` yields `0` for any symbol not in the table
(notably `neg` and `(`). -/
def precedence (op : String) : Nat :=
  if op = "||" then 1
  else if op = "&&" then 2
  else if op = "==" ∨ op = "!=" ∨ op = "<" ∨ op = "<=" ∨ op = ">" ∨ op = ">=" then 3
  else if op = "+" ∨ op = "-" then 4
  else if op = "*" ∨ op = "/" ∨ op = "%" then 5
  else if op = "!" ∨ op = "++" ∨ op = "--" then 6
  else 0

/-- `processOp`: reduce the operator `op` just popped off the operator stack
against the operand stack.  Only `!`, `++` and `--` are treated as unary;
every other symbol — including the relabelled unary minus `neg` — pops two
operands. -/
def processOp (st : PState) (op : String) (nodes : List TreeNode) :
    Except String (List TreeNode) :=
  if op = "!" ∨ op = "++" ∨ op = "--" then
    match nodes with
    | [] => .error (errMsg st "Missing operand for unary operator")
    | top :: rest => .ok (TreeNode.mk NODE_OP op [some top] :: rest)
  else
    match nodes with
    | right :: left :: rest =>
        .ok (TreeNode.mk NODE_OP op [some left, some right] :: rest)
    | _ => .error (errMsg st "Missing operands for binary operator")

/-- The `)` reduction: pop and reduce until the matching `(`, which is
discarded; an exhausted stack is the fatal unmatched-parentheses error. -/
def reduceUntilParen (st : PState) :
    List String → List TreeNode → Except String (List String × List TreeNode)
  | [], _ => .error (errMsg st "Unmatched parentheses")
  | op :: rest, nodes =>
    if op = "(" then .ok (rest, nodes)
    else do
      let nodes' ← processOp st op nodes
      reduceUntilParen st rest nodes'

/-- The shift step for an incoming operator: reduce while the stack top is a
non-parenthesis operator of precedence at least the incoming one's. -/
def reduceWhilePrec (st : PState) (op : String) :
    List String → List TreeNode → Except String (List String × List TreeNode)
  | [], nodes => .ok ([], nodes)
  | top :: rest, nodes =>
    if top ≠ "(" ∧ precedence top ≥ precedence op then do
      let nodes' ← processOp st top nodes
      reduceWhilePrec st op rest nodes'
    else
      .ok (top :: rest, nodes)

/-- The termination drain: reduce all remaining operators; a `(` left on the
stack is the fatal unmatched-parentheses error. -/
def drainOps (st : PState) :
    List String → List TreeNode → Except String (List TreeNode)
  | [], nodes => .ok nodes
  | op :: rest, nodes =>
    if op = "(" then .error (errMsg st "Unmatched parentheses")
    else do
      let nodes' ← processOp st op nodes
      drainOps st rest nodes'

/-- The main token loop of `parseArithmeticExpr` (part_002 draft): stop,
without consuming, at end of stream, `;`, `,`, the keywords `then`, `do`,
`else`, or `\x7b` — the closing `)` of an enclosing statement is NOT in the
stop set and is consumed and reduced inside the loop. -/
def exprLoop : Nat → PState → List TreeNode → List String →
    Except String (PState × List TreeNode × List String)
  | 0, _, _, _ => .error fuelMsg
  | fuel + 1, st, nodes, ops =>
    if !(isAtEnd st) && !(checkTV st TOKEN_SEP ";") && !(checkTV st TOKEN_SEP ",") &&
       !(checkTV st TOKEN_KEYWORD "then") && !(checkTV st TOKEN_KEYWORD "do") &&
       !(checkTV st TOKEN_KEYWORD "else") && !(checkTV st TOKEN_SEP "\x7b") then
      match matchTV st TOKEN_SEP "(" with
      | some st' => exprLoop fuel st' nodes ("(" :: ops)
      | none =>
      match matchTV st TOKEN_SEP ")" with
      | some st' => do
          let (ops', nodes') ← reduceUntilParen st' ops nodes
          exprLoop fuel st' nodes' ops'
      | none =>
      match matchT st TOKEN_OP with
      | some st' =>
          let op₀ := (previous st').value
          let op := if op₀ = "-" &&
                       (nodes.isEmpty || (!ops.isEmpty && ops.headD "" = "("))
                    then "neg" else op₀
          do
            let (ops', nodes') ← reduceWhilePrec st' op ops nodes
            exprLoop fuel st' nodes' (op :: ops')
      | none =>
      match matchT st TOKEN_ID with
      | some st' => exprLoop fuel st' (TreeNode.mk NODE_ID (previous st').value [] :: nodes) ops
      | none =>
      match matchT st TOKEN_NUM with
      | some st' => exprLoop fuel st' (TreeNode.mk NODE_NUM (previous st').value [] :: nodes) ops
      | none =>
      match matchT st TOKEN_FLOAT with
      | some st' => exprLoop fuel st' (TreeNode.mk NODE_FLOAT (previous st').value [] :: nodes) ops
      | none =>
      match matchT st TOKEN_BOOL with
      | some st' => exprLoop fuel st' (TreeNode.mk NODE_BOOLVAL (previous st').value [] :: nodes) ops
      | none => .error (errMsg st "Expected operand in expression")
    else
      .ok (st, nodes, ops)

/-- `parseArithmeticExpr` (part_002 draft): the up-front empty-expression
check on `;`, the two-stack loop, the drain, and the one-operand check,
wrapping the survivor in an Expression node. -/
def parseArithmeticExpr (fuel : Nat) (st : PState) :
    Except String (TreeNode × PState) :=
  if checkTV st TOKEN_SEP ";" then
    .error (errMsg st "Empty expression not allowed here")
  else do
    let (st', nodes, ops) ← exprLoop fuel st [] []
    let nodes' ← drainOps st' ops nodes
    match nodes' with
    | [] => .error (errMsg st' "Empty expression")
    | [top] => .ok (TreeNode.mk NODE_EXPR "" [some top], st')
    | _ => .error (errMsg st' "Malformed expression")

/-- `parseBoolExpr` (part_002 draft): parse arithmetically; at `\x7b` return
as-is; otherwise a trailing comparison operator builds a two-child
BooleanExpression node. -/
def parseBoolExpr (fuel : Nat) (st : PState) :
    Except String (TreeNode × PState) := do
  let (left, st₁) ← parseArithmeticExpr fuel st
  if checkTV st₁ TOKEN_SEP "\x7b" then
    .ok (left, st₁)
  else if checkTV st₁ TOKEN_OP ">" || checkTV st₁ TOKEN_OP "<" ||
          checkTV st₁ TOKEN_OP ">=" || checkTV st₁ TOKEN_OP "<=" ||
          checkTV st₁ TOKEN_OP "==" || checkTV st₁ TOKEN_OP "!=" then
    let (opTok, st₂) := advance st₁
    let (right, st₃) ← parseArithmeticExpr fuel st₂
    .ok (TreeNode.mk NODE_BOOL opTok.value [some left, some right], st₃)
  else
    .ok (left, st₁)

/-- `parseAssignStmt(inForLoop)`: identifier, then either a postfix `++`/`--`
(one child) or an assignment operator with a right-hand side disambiguated by
the lookahead; the trailing `;` is consumed unless `inForLoop`. -/
def parseAssignStmt (fuel : Nat) (inForLoop : Bool) (st : PState) :
    Except String (TreeNode × PState) := do
  let st₁ ← consumeT st TOKEN_ID "Expected identifier in assignment"
  let idNode := TreeNode.mk NODE_ID (previous st₁).value []
  let op := (peek st₁).value
  if op = "++" ∨ op = "--" then do
    let st₂ ← consumeT st₁ TOKEN_OP "Expected operator"
    let assignNode := TreeNode.mk NODE_ASSIGN op [some idNode]
    if !inForLoop then do
      let st₃ ← consumeTV st₂ TOKEN_SEP ";" "Expected \x27;\x27 after assignment"
      .ok (assignNode, st₃)
    else
      .ok (assignNode, st₂)
  else do
    let st₂ ← consumeT st₁ TOKEN_OP "Expected assignment operator"
    let (rhs, st₃) ←
      if op = "=" then
        if checkT st₂ TOKEN_BOOL || checkTV st₂ TOKEN_OP "!" ||
           checkT st₂ TOKEN_ID || checkTV st₂ TOKEN_SEP "(" then
          parseBoolExpr fuel st₂
        else
          parseArithmeticExpr fuel st₂
      else
        parseArithmeticExpr fuel st₂
    let assignNode := TreeNode.mk NODE_ASSIGN op [some idNode, some rhs]
    if !inForLoop then do
      let st₄ ← consumeTV st₃ TOKEN_SEP ";" "Expected \x27;\x27 after assignment"
      .ok (assignNode, st₄)
    else
      .ok (assignNode, st₃)

/-- The declarator do-while of `parseDecl`: identifier, optional initializer
(boolean entry for `bool`, arithmetic otherwise), repeated over commas. -/
def declItemsLoop (typeStr : String) (idMessage : String) :
    Nat → PState → List (Option TreeNode) →
    Except String (List (Option TreeNode) × PState)
  | 0, _, _ => .error fuelMsg
  | fuel + 1, st, acc => do
    let st₁ ← consumeT st TOKEN_ID idMessage
    let acc₁ := acc ++ [some (TreeNode.mk NODE_ID (previous st₁).value [])]
    let (acc₂, st₂) ←
      match matchTV st₁ TOKEN_OP "=" with
      | some stEq => do
          let (init, st') ←
            if typeStr = "bool" then parseBoolExpr fuel stEq
            else parseArithmeticExpr fuel stEq
          Except.ok (acc₁ ++ [some init], st')
      | none => Except.ok (acc₁, st₁)
    match matchTV st₂ TOKEN_SEP "," with
    | some st₃ => declItemsLoop typeStr idMessage fuel st₃ acc₂
    | none => .ok (acc₂, st₂)

/-- `parseDecl` (the for-initializer declaration): a type keyword, a list of
declarators, and the terminating `;`. -/
def parseDecl (fuel : Nat) (st : PState) : Except String (TreeNode × PState) := do
  let (typeStr, st₁) ←
    match matchTV st TOKEN_KEYWORD "int" with
    | some st' => Except.ok ("int", st')
    | none =>
      match matchTV st TOKEN_KEYWORD "float" with
      | some st' => Except.ok ("float", st')
      | none =>
        match matchTV st TOKEN_KEYWORD "bool" with
        | some st' => Except.ok ("bool", st')
        | none => Except.error (errMsg st "Expected type keyword in declaration")
  let declChildren := [some (TreeNode.mk NODE_TYPE typeStr [])]
  let (items, st₂) ← declItemsLoop typeStr "Expected variable name" fuel st₁ declChildren
  let st₃ ← consumeTV st₂ TOKEN_SEP ";" "Expected \x27;\x27 after declaration"
  .ok (TreeNode.mk NODE_LIST "" items, st₃)

/-- The declarator do-while of `parseDecls`, whose body begins with
`if (match(TOKEN_SEP, ";")) break;` — the allow-empty-declaration branch that
consumes a `;` found where a declarator was due. -/
def declGroupLoop (typeStr : String) :
    Nat → PState → List (Option TreeNode) →
    Except String (List (Option TreeNode) × PState)
  | 0, _, _ => .error fuelMsg
  | fuel + 1, st, acc =>
    match matchTV st TOKEN_SEP ";" with
    | some st' => .ok (acc, st')
    | none => do
      let st₁ ← consumeT st TOKEN_ID "Expected variable name in declaration"
      let acc₁ := acc ++ [some (TreeNode.mk NODE_ID (previous st₁).value [])]
      let (acc₂, st₂) ←
        match matchTV st₁ TOKEN_OP "=" with
        | some stEq => do
            let (init, st') ←
              if typeStr = "bool" then parseBoolExpr fuel stEq
              else parseArithmeticExpr fuel stEq
            Except.ok (acc₁ ++ [some init], st')
        | none => Except.ok (acc₁, st₁)
      match matchTV st₂ TOKEN_SEP "," with
      | some st₃ => declGroupLoop typeStr fuel st₃ acc₂
      | none => .ok (acc₂, st₂)

/-- The outer loop of `parseDecls`: one declaration group per leading type
keyword, each terminated by `consume(";")` after its declarator loop. -/
def parseDeclsLoop : Nat → PState → List (Option TreeNode) →
    Except String (List (Option TreeNode) × PState)
  | 0, _, _ => .error fuelMsg
  | fuel + 1, st, acc =>
    if !(isAtEnd st) then
      if checkTV st TOKEN_KEYWORD "int" || checkTV st TOKEN_KEYWORD "float" ||
         checkTV st TOKEN_KEYWORD "bool" then do
        let (typeStr, st₁) ←
          match matchTV st TOKEN_KEYWORD "int" with
          | some st' => Except.ok ("int", st')
          | none =>
            match matchTV st TOKEN_KEYWORD "float" with
            | some st' => Except.ok ("float", st')
            | none =>
              match matchTV st TOKEN_KEYWORD "bool" with
              | some st' => Except.ok ("bool", st')
              | none => Except.ok ("", st)
        let declChildren := [some (TreeNode.mk NODE_TYPE typeStr [])]
        let (items, st₂) ← declGroupLoop typeStr fuel st₁ declChildren
        let st₃ ← consumeTV st₂ TOKEN_SEP ";" "Expected \x27;\x27 after declaration"
        parseDeclsLoop fuel st₃ (acc ++ [some (TreeNode.mk NODE_LIST "" items)])
      else
        .ok (acc, st)
    else
      .ok (acc, st)

/-- `parseDecls`: the DeclarationList node gathering all leading declaration
groups. -/
def parseDecls (fuel : Nat) (st : PState) : Except String (TreeNode × PState) := do
  let (groups, st') ← parseDeclsLoop fuel st []
  .ok (TreeNode.mk NODE_DECLS "" groups, st')

/-- The identifier do-while shared by `parseReadStmt` and the parenthesized
form of `parseWriteStmt`. -/
def idListLoop (idMessage : String) :
    Nat → PState → List (Option TreeNode) →
    Except String (List (Option TreeNode) × PState)
  | 0, _, _ => .error fuelMsg
  | fuel + 1, st, acc => do
    let st₁ ← consumeT st TOKEN_ID idMessage
    let acc₁ := acc ++ [some (TreeNode.mk NODE_ID (previous st₁).value [])]
    match matchTV st₁ TOKEN_SEP "," with
    | some st₂ => idListLoop idMessage fuel st₂ acc₁
    | none => .ok (acc₁, st₁)

/-- `parseReadStmt`: `read ( id (, id)* ) ;`. -/
def parseReadStmt (fuel : Nat) (st : PState) :
    Except String (TreeNode × PState) := do
  let st₁ ← consumeTV st TOKEN_KEYWORD "read" "Expected \x27read\x27"
  let st₂ ← consumeTV st₁ TOKEN_SEP "(" "Expected \x27(\x27 after \x27read\x27"
  let (ids, st₃) ← idListLoop "Expected variable name in read statement" fuel st₂ []
  let st₄ ← consumeTV st₃ TOKEN_SEP ")" "Expected \x27)\x27 after read arguments"
  let st₅ ← consumeTV st₄ TOKEN_SEP ";" "Expected \x27;\x27 after read statement"
  .ok (TreeNode.mk NODE_READ "" ids, st₅)

/-- `parseWriteStmt` (part_002 draft): parenthesized identifier list or the
parenthesis-free single-identifier short form, then `;`. -/
def parseWriteStmt (fuel : Nat) (st : PState) :
    Except String (TreeNode × PState) := do
  let st₁ ← consumeTV st TOKEN_KEYWORD "write" "Expected \x27write\x27"
  let (ids, st₂) ←
    match matchTV st₁ TOKEN_SEP "(" with
    | some stP => do
        let (ids, st') ← idListLoop "Expected variable name in write statement" fuel stP []
        let st'' ← consumeTV st' TOKEN_SEP ")" "Expected \x27)\x27 after write arguments"
        Except.ok (ids, st'')
    | none => do
        let st' ← consumeT st₁ TOKEN_ID "Expected variable name in write statement"
        Except.ok ([some (TreeNode.mk NODE_ID (previous st').value [])], st')
  let st₃ ← consumeTV st₂ TOKEN_SEP ";" "Expected \x27;\x27 after write statement"
  .ok (TreeNode.mk NODE_WRITE "" ids, st₃)

mutual

/-- `parseStmt` (part_002 draft): dispatch on the lookahead; a bare `;` is
the empty statement. -/
def parseStmt : Nat → PState → Except String (TreeNode × PState)
  | 0, _ => .error fuelMsg
  | fuel + 1, st =>
    if checkTV st TOKEN_SEP "\x7b" then parseBlock fuel st
    else if checkTV st TOKEN_KEYWORD "if" then parseIfStmt fuel st
    else if checkTV st TOKEN_KEYWORD "while" then parseWhileStmt fuel st
    else if checkTV st TOKEN_KEYWORD "for" then parseForStmt fuel st
    else if checkTV st TOKEN_KEYWORD "read" then parseReadStmt fuel st
    else if checkTV st TOKEN_KEYWORD "write" then parseWriteStmt fuel st
    else if checkT st TOKEN_ID then parseAssignStmt fuel false st
    else
      match matchTV st TOKEN_SEP ";" with
      | some st' => .ok (TreeNode.mk NODE_STMTS "empty_stmt" [], st')
      | none => .error (errMsg st ("Expected statement but found: " ++ (peek st).value))

/-- The statement loop shared by `parseStmts` and the interior of
`parseBlock`: parse statements until end of stream or a closing `\x7d`. -/
def stmtsLoop : Nat → PState → List (Option TreeNode) →
    Except String (List (Option TreeNode) × PState)
  | 0, _, _ => .error fuelMsg
  | fuel + 1, st, acc =>
    if !(isAtEnd st) && !(checkTV st TOKEN_SEP "\x7d") then do
      let (stmt, st') ← parseStmt fuel st
      stmtsLoop fuel st' (acc ++ [some stmt])
    else
      .ok (acc, st)

/-- `parseBlock`: `\x7b stmt* \x7d`. -/
def parseBlock : Nat → PState → Except String (TreeNode × PState)
  | 0, _ => .error fuelMsg
  | fuel + 1, st => do
    let st₁ ← consumeTV st TOKEN_SEP "\x7b" "Expected \x27\x7b\x27 to start block"
    let (stmts, st₂) ← stmtsLoop fuel st₁ []
    let st₃ ← consumeTV st₂ TOKEN_SEP "\x7d" "Expected \x27\x7d\x27 to end block"
    .ok (TreeNode.mk NODE_BLOCK "" stmts, st₃)

/-- `parseIfStmt` (part_002 draft): condition in parentheses, a consumed
`\x7b`, then either a further brace-block or a single statement as the then
branch, and an optional `else` whose `\x7b` is likewise consumed before
`parseBlock`. -/
def parseIfStmt : Nat → PState → Except String (TreeNode × PState)
  | 0, _ => .error fuelMsg
  | fuel + 1, st => do
    let st₁ ← consumeTV st TOKEN_KEYWORD "if" "Expected \x27if\x27"
    let st₂ ← consumeTV st₁ TOKEN_SEP "(" "Expected \x27(\x27 after \x27if\x27"
    let (cond, st₃) ← parseBoolExpr (fuel + 1) st₂
    let st₄ ← consumeTV st₃ TOKEN_SEP ")" "Expected \x27)\x27 after condition"
    let st₅ ← consumeTV st₄ TOKEN_SEP "\x7b" "Expected \x27\x7b\x27 to start if block"
    let (thenBranch, st₆) ←
      match matchTV st₅ TOKEN_SEP "\x7b" with
      | some stB => parseBlock fuel stB
      | none => do
          let (stmt, st') ← parseStmt fuel st₅
          match matchTV st' TOKEN_SEP ";" with
          | some st'' => Except.ok (stmt, st'')
          | none => Except.ok (stmt, st')
    let ifChildren := [some cond, some thenBranch]
    match matchTV st₆ TOKEN_KEYWORD "else" with
    | some stE => do
        let stE₁ ← consumeTV stE TOKEN_SEP "\x7b" "Expected \x27\x7b\x27 to start else block"
        let (elseBranch, st₇) ← parseBlock fuel stE₁
        Except.ok (TreeNode.mk NODE_IF "" (ifChildren ++ [some elseBranch]), st₇)
    | none => .ok (TreeNode.mk NODE_IF "" ifChildren, st₆)

/-- `parseWhileStmt` (part_002 draft): condition in parentheses, then a
brace-block or single-statement body. -/
def parseWhileStmt : Nat → PState → Except String (TreeNode × PState)
  | 0, _ => .error fuelMsg
  | fuel + 1, st => do
    let st₁ ← consumeTV st TOKEN_KEYWORD "while" "Expected \x27while\x27"
    let st₂ ← consumeTV st₁ TOKEN_SEP "(" "Expected \x27(\x27 after \x27while\x27"
    let (cond, st₃) ← parseBoolExpr (fuel + 1) st₂
    let st₄ ← consumeTV st₃ TOKEN_SEP ")" "Expected \x27)\x27 after condition"
    let (body, st₅) ←
      if checkTV st₄ TOKEN_SEP "\x7b" then parseBlock fuel st₄
      else parseStmt fuel st₄
    .ok (TreeNode.mk NODE_WHILE "" [some cond, some body], st₅)

/-- `parseForStmt` (part_002 draft): the three clauses, each pushed as an
explicit null child when absent, then a brace-block body or a Block wrapped
around a single statement. -/
def parseForStmt : Nat → PState → Except String (TreeNode × PState)
  | 0, _ => .error fuelMsg
  | fuel + 1, st => do
    let st₁ ← consumeTV st TOKEN_KEYWORD "for" "Expected \x27for\x27"
    let st₂ ← consumeTV st₁ TOKEN_SEP "(" "Expected \x27(\x27 after \x27for\x27"
    let (initChild, st₃) ←
      if !(checkTV st₂ TOKEN_SEP ";") then
        if checkTV st₂ TOKEN_KEYWORD "int" || checkTV st₂ TOKEN_KEYWORD "float" ||
           checkTV st₂ TOKEN_KEYWORD "bool" then do
          let (decl, st') ← parseDecl (fuel + 1) st₂
          Except.ok (some decl, st')
        else do
          let (assign, st') ← parseAssignStmt (fuel + 1) false st₂
          let st'' ← consumeTV st' TOKEN_SEP ";" "Expected \x27;\x27 after for initializer"
          Except.ok (some assign, st'')
      else do
        let st' ← consumeTV st₂ TOKEN_SEP ";" "Expected \x27;\x27 after for initializer"
        Except.ok (none, st')
    let (condChild, st₄) ←
      if !(checkTV st₃ TOKEN_SEP ";") then do
        let (cond, st') ← parseBoolExpr (fuel + 1) st₃
        Except.ok (some cond, st')
      else
        Except.ok (none, st₃)
    let st₅ ← consumeTV st₄ TOKEN_SEP ";" "Expected \x27;\x27 after for condition"
    let (updateChild, st₆) ←
      if !(checkTV st₅ TOKEN_SEP ")") then do
        let (upd, st') ← parseAssignStmt (fuel + 1) true st₅
        Except.ok (some upd, st')
      else
        Except.ok (none, st₅)
    let st₇ ← consumeTV st₆ TOKEN_SEP ")" "Expected \x27)\x27 after for update"
    let (body, st₈) ←
      if checkTV st₇ TOKEN_SEP "\x7b" then parseBlock fuel st₇
      else do
        let (stmt, st') ← parseStmt fuel st₇
        Except.ok (TreeNode.mk NODE_BLOCK "" [some stmt], st')
    .ok (TreeNode.mk NODE_FOR "" [initChild, condChild, updateChild, some body], st₈)

end

/-- `parseStmts`: the StatementList of everything up to end of stream or a
closing `\x7d`. -/
def parseStmts (fuel : Nat) (st : PState) : Except String (TreeNode × PState) := do
  let (stmts, st') ← stmtsLoop fuel st []
  .ok (TreeNode.mk NODE_STMTS "" stmts, st')

/-- `parse()`: declarations first, then statements, under a Block root. -/
def parse (fuel : Nat) (tokens : List Token) : Except String TreeNode := do
  let st : PState := ⟨tokens, 0⟩
  let (decls, st₁) ← parseDecls fuel st
  let (stmts, _) ← parseStmts fuel st₁
  .ok (TreeNode.mk NODE_BLOCK "" [some decls, some stmts])

end Parse

namespace Parse

/-- C1.  The claim says a well-formed `while ( cond ) body` parses into a
two-child While node, the closing `)` being consumed as the statement's
delimiter.  The code instead lets the expression engine consume that `)` —
the engine's loop does not stop at `)` — and, finding no matching `(` on its
own operator stack, aborts the whole parse with the fatal unmatched-
parentheses diagnostic.  Evaluated here on the token sequence of
`while ( x < 3 ) \x7b \x7d`. -/
theorem c1_while_closing_paren_fatal :
    parse 32 [⟨TOKEN_KEYWORD, "while"⟩, ⟨TOKEN_SEP, "("⟩, ⟨TOKEN_ID, "x"⟩,
      ⟨TOKEN_OP, "<"⟩, ⟨TOKEN_NUM, "3"⟩, ⟨TOKEN_SEP, ")"⟩,
      ⟨TOKEN_SEP, "\x7b"⟩, ⟨TOKEN_SEP, "\x7d"⟩] =
    Except.error "Syntax error: Unmatched parentheses at token: \x7b" := by
  rfl

/-- C2.  The claim says `if ( cond ) \x7b s1 ... sn \x7d` parses into an If
node whose then branch holds the braced statements.  As with `while`, the
expression engine consumes the `)` closing the condition and aborts with the
fatal unmatched-parentheses diagnostic, so no if statement with a
parenthesized condition ever parses.  Evaluated on the token sequence of
`if ( x ) \x7b a = 1 ; \x7d`. -/
theorem c2_if_closing_paren_fatal :
    parse 32 [⟨TOKEN_KEYWORD, "if"⟩, ⟨TOKEN_SEP, "("⟩, ⟨TOKEN_ID, "x"⟩,
      ⟨TOKEN_SEP, ")"⟩, ⟨TOKEN_SEP, "\x7b"⟩, ⟨TOKEN_ID, "a"⟩,
      ⟨TOKEN_OP, "="⟩, ⟨TOKEN_NUM, "1"⟩, ⟨TOKEN_SEP, ";"⟩,
      ⟨TOKEN_SEP, "\x7d"⟩] =
    Except.error "Syntax error: Unmatched parentheses at token: \x7b" := by
  rfl

/-- C3.  The claim says a `-` relabelled as unary `neg` is reduced popping
exactly one operand, so `a = -1 + 2;` succeeds.  In `processOp` the unary
list is only `!`, `++`, `--`: the relabelled `neg` falls into the binary
branch, needs two operands, and parsing `a = -1 + 2;` aborts with the fatal
missing-operands diagnostic, while `a = 1 - 2;` does yield the binary
subtraction tree the claim describes. -/
theorem c3_neg_treated_as_binary :
    parse 32 [⟨TOKEN_ID, "a"⟩, ⟨TOKEN_OP, "="⟩, ⟨TOKEN_OP, "-"⟩,
      ⟨TOKEN_NUM, "1"⟩, ⟨TOKEN_OP, "+"⟩, ⟨TOKEN_NUM, "2"⟩, ⟨TOKEN_SEP, ";"⟩] =
      Except.error "Syntax error: Missing operands for binary operator at token: ;" ∧
    parse 32 [⟨TOKEN_ID, "a"⟩, ⟨TOKEN_OP, "="⟩, ⟨TOKEN_NUM, "1"⟩,
      ⟨TOKEN_OP, "-"⟩, ⟨TOKEN_NUM, "2"⟩, ⟨TOKEN_SEP, ";"⟩] =
      Except.ok (TreeNode.mk NODE_BLOCK ""
        [some (TreeNode.mk NODE_DECLS "" []),
         some (TreeNode.mk NODE_STMTS ""
           [some (TreeNode.mk NODE_ASSIGN "="
             [some (TreeNode.mk NODE_ID "a" []),
              some (TreeNode.mk NODE_EXPR ""
                [some (TreeNode.mk NODE_OP "-"
                  [some (TreeNode.mk NODE_NUM "1" []),
                   some (TreeNode.mk NODE_NUM "2" [])])])])])]) := by
  exact ⟨rfl, rfl⟩

/-- C7.  Parsing `a = 1 2;` leaves two operands on the operand stack and
aborts with the fatal malformed-expression diagnostic of the drain phase;
parsing `a = ;` aborts with the fatal empty-expression diagnostic of the
engine's up-front check.  Neither run produces an AST. -/
theorem c7_malformed_and_empty_expression_fatal :
    parse 32 [⟨TOKEN_ID, "a"⟩, ⟨TOKEN_OP, "="⟩, ⟨TOKEN_NUM, "1"⟩,
      ⟨TOKEN_NUM, "2"⟩, ⟨TOKEN_SEP, ";"⟩] =
      Except.error "Syntax error: Malformed expression at token: ;" ∧
    parse 32 [⟨TOKEN_ID, "a"⟩, ⟨TOKEN_OP, "="⟩, ⟨TOKEN_SEP, ";"⟩] =
      Except.error "Syntax error: Empty expression not allowed here at token: ;" := by
  exact ⟨rfl, rfl⟩

/-- C8.  Parsing `for ( ; ; ) \x7b \x7d` succeeds and yields a For node with
exactly four child slots: three explicit null markers for the absent init,
condition and update clauses, and an empty Block body. -/
theorem c8_empty_for_clauses_are_null_markers :
    parse 32 [⟨TOKEN_KEYWORD, "for"⟩, ⟨TOKEN_SEP, "("⟩, ⟨TOKEN_SEP, ";"⟩,
      ⟨TOKEN_SEP, ";"⟩, ⟨TOKEN_SEP, ")"⟩, ⟨TOKEN_SEP, "\x7b"⟩,
      ⟨TOKEN_SEP, "\x7d"⟩] =
    Except.ok (TreeNode.mk NODE_BLOCK ""
      [some (TreeNode.mk NODE_DECLS "" []),
       some (TreeNode.mk NODE_STMTS ""
         [some (TreeNode.mk NODE_FOR ""
           [none, none, none, some (TreeNode.mk NODE_BLOCK "" [])])])]) := by
  rfl

/-- C9 counterexample.  On the token sequence of `int ;` the parse does
abort, but the diagnostic is not a missing-identifier error: the leading `;`
is consumed by the allow-empty-declaration branch of the declarator loop, and
the abort comes from the subsequent `consume(";")` finding the stream
exhausted. -/
theorem c9_int_semicolon_error_is_not_missing_identifier :
    parse 32 [⟨TOKEN_KEYWORD, "int"⟩, ⟨TOKEN_SEP, ";"⟩] =
      Except.error "Syntax error: Expected \x27;\x27 after declaration (Actual: ) at token: " ∧
    ("Syntax error: Expected \x27;\x27 after declaration (Actual: ) at token: ").toList.take 36 ≠
      ("Syntax error: Expected variable name").toList := by
  exact ⟨rfl, by decide⟩

/-- C9 amended.  For the token sequence of `int ;` the parser still aborts
with a fatal error, but it is the expected-semicolon diagnostic (a second `;`
would have been required after the consumed one), not a missing-identifier
error. -/
theorem c9_int_semicolon_aborts_expecting_second_semicolon :
    parse 32 [⟨TOKEN_KEYWORD, "int"⟩, ⟨TOKEN_SEP, ";"⟩] =
      Except.error "Syntax error: Expected \x27;\x27 after declaration (Actual: ) at token: " := by
  rfl

/-- C10.  The token accessors are total: `peek` at or past the end of the
vector returns the empty-lexeme error sentinel and `isAtEnd` then holds,
`previous` at index 0 returns the same sentinel, and `advance` leaves the
index (whole state) unchanged once `isAtEnd` holds. -/
theorem c10_token_accessors_total (ts : List Token) (c : Nat)
    (h : ts.length ≤ c) :
    peek ⟨ts, c⟩ = sentinel ∧ isAtEnd ⟨ts, c⟩ = true ∧
    previous ⟨ts, 0⟩ = sentinel ∧
    ∀ st : PState, isAtEnd st = true → (advance st).2 = st := by
  refine ⟨?_, ?_, ?_, ?_⟩
  · simp [peek, Nat.not_lt.mpr h]
  · simp [isAtEnd, peek, Nat.not_lt.mpr h, sentinel]
  · simp [previous]
  · intro st hEnd
    simp [advance, hEnd]

/-- Witness for C10 at a concrete vector and index. -/
theorem c10_token_accessors_total_witness :
    peek ⟨[⟨TOKEN_NUM, "1"⟩], 1⟩ = sentinel ∧
    isAtEnd ⟨[⟨TOKEN_NUM, "1"⟩], 1⟩ = true ∧
    previous ⟨[⟨TOKEN_NUM, "1"⟩], 0⟩ = sentinel ∧
    ∀ st : PState, isAtEnd st = true → (advance st).2 = st :=
  c10_token_accessors_total [⟨TOKEN_NUM, "1"⟩] 1 (by decide)

end Parse

namespace Lex

theorem advance_fst (s : LexState) : (advance s).1 = peek s := by
  simp only [advance]
  split <;> rfl

theorem advance_source (s : LexState) : (advance s).2.source = s.source := by
  simp only [advance]
  split <;> split <;> rfl

theorem lt_of_peek_ne_nul {s : LexState} (h : peek s ≠ nul) :
    s.pos < s.source.length := by
  by_contra hge
  apply h
  unfold peek
  exact List.getD_eq_default _ _ (Nat.le_of_not_lt hge)

theorem advance_pos_of_lt {s : LexState} (h : s.pos < s.source.length) :
    (advance s).2.pos = s.pos + 1 := by
  simp only [advance]
  rw [if_pos h]
  split <;> rfl

theorem advance_pos_of_ge {s : LexState} (h : ¬s.pos < s.source.length) :
    (advance s).2.pos = s.pos := by
  simp only [advance]
  rw [if_neg h]
  split <;> rfl

theorem advance_pos_ge (s : LexState) : s.pos ≤ (advance s).2.pos := by
  by_cases h : s.pos < s.source.length
  · rw [advance_pos_of_lt h]
    omega
  · rw [advance_pos_of_ge h]

theorem peek_advance {s : LexState} (h : s.pos < s.source.length) :
    peek (advance s).2 = charAt s (s.pos + 1) := by
  simp [peek, charAt, advance_source, advance_pos_of_lt h]

theorem advance_of_ne_newline {s : LexState} (h : s.pos < s.source.length)
    (hnl : peek s ≠ '\n') :
    (advance s).2 = { s with pos := s.pos + 1, column := s.column + 1 } := by
  simp only [advance]
  rw [if_neg hnl, if_pos h]

theorem advance_of_newline {s : LexState} (h : s.pos < s.source.length)
    (hnl : peek s = '\n') :
    (advance s).2 = { s with pos := s.pos + 1, line := s.line + 1, column := 1 } := by
  simp only [advance]
  rw [if_pos hnl, if_pos h]

theorem lineColAt_succ (src : List Char) (n : Nat) (h : n < src.length) :
    lineColAt src (n + 1) = lcStep (lineColAt src n) (src.getD n nul) := by
  unfold lineColAt
  rw [List.take_succ, List.foldl_append]
  simp [List.getElem?_eq_getElem h, List.getD_eq_getElem _ _ h]

theorem advance_wf {s : LexState} (h : s.pos < s.source.length) (hWF : WF s) :
    WF (advance s).2 := by
  have hstep := lineColAt_succ s.source s.pos h
  have hpk : s.source.getD s.pos nul = peek s := rfl
  unfold WF at hWF ⊢
  rw [advance_source s, advance_pos_of_lt h, hstep, ← hWF, hpk]
  by_cases hc : peek s = '\n'
  · rw [advance_of_newline h hc]
    simp [lcStep, hc]
  · rw [advance_of_ne_newline h hc]
    simp [lcStep, hc]

theorem tracks_refl (s : LexState) : Tracks s s 0 :=
  ⟨rfl, rfl, by omega, by omega, fun h => h⟩

theorem tracks_trans {s s' s'' : LexState} {d e : Nat}
    (h₁ : Tracks s s' d) (h₂ : Tracks s' s'' e) : Tracks s s'' (d + e) := by
  obtain ⟨a₁, b₁, c₁, d₁, e₁⟩ := h₁
  obtain ⟨a₂, b₂, c₂, d₂, e₂⟩ := h₂
  exact ⟨a₂.trans a₁, b₂.trans b₁, by omega, by omega, fun h => e₂ (e₁ h)⟩

theorem tracks_congr {s s' : LexState} {d e : Nat}
    (h : Tracks s s' d) (hde : d = e) : Tracks s s' e := hde ▸ h

theorem tracks_advance {s : LexState} (hnul : peek s ≠ nul)
    (hnl : peek s ≠ '\n') : Tracks s (advance s).2 1 := by
  have hlt := lt_of_peek_ne_nul hnul
  have heq := advance_of_ne_newline hlt hnl
  exact ⟨advance_source s, by rw [heq], by rw [advance_pos_of_lt hlt],
    by rw [heq], fun hWF => advance_wf hlt hWF⟩

theorem tracks_wf {s s' : LexState} {d : Nat} (h : Tracks s s' d) (hWF : WF s) :
    WF s' := h.2.2.2.2 hWF

theorem skips_refl (s : LexState) : Skips s s := ⟨rfl, le_refl _, fun h => h⟩

theorem skips_trans {s s' s'' : LexState} (h₁ : Skips s s') (h₂ : Skips s' s'') :
    Skips s s'' :=
  ⟨h₂.1.trans h₁.1, h₁.2.1.trans h₂.2.1, fun h => h₂.2.2 (h₁.2.2 h)⟩

theorem skips_of_tracks {s s' : LexState} {d : Nat} (h : Tracks s s' d) :
    Skips s s' :=
  ⟨h.1, by have := h.2.2.1; omega, h.2.2.2.2⟩

theorem skips_advance {s : LexState} (hnul : peek s ≠ nul) :
    Skips s (advance s).2 := by
  have hlt := lt_of_peek_ne_nul hnul
  exact ⟨advance_source s, advance_pos_ge s, fun hWF => advance_wf hlt hWF⟩

theorem consumeWhileF_tracks (p : Char → Bool) (hnul : p nul = false)
    (hnl : p '\n' = false) :
    ∀ (fuel : Nat) (s : LexState) (acc : String),
      Tracks s (consumeWhileF p fuel s acc).2
        ((consumeWhileF p fuel s acc).1.length - acc.length) ∧
      acc.length ≤ (consumeWhileF p fuel s acc).1.length := by
  intro fuel
  induction fuel with
  | zero =>
    intro s acc
    have heq : consumeWhileF p 0 s acc = (acc, s) := rfl
    rw [heq]
    exact ⟨by simpa using tracks_refl s, le_refl _⟩
  | succ n ih =>
    intro s acc
    by_cases hp : p (peek s)
    · have hne : peek s ≠ nul := fun h => by rw [h, hnul] at hp; exact absurd hp (by simp)
      have hne' : peek s ≠ '\n' := fun h => by rw [h, hnl] at hp; exact absurd hp (by simp)
      have hstep := tracks_advance hne hne'
      have heq : consumeWhileF p (n + 1) s acc =
          consumeWhileF p n (advance s).2 (acc.push (advance s).1) := by
        simp [consumeWhileF, hp]
      obtain ⟨ht, hlen⟩ := ih (advance s).2 (acc.push (advance s).1)
      rw [String.length_push] at hlen
      rw [heq]
      refine ⟨tracks_congr (tracks_trans hstep ht) ?_, by omega⟩
      simp only [String.length_push]
      omega
    · have heq : consumeWhileF p (n + 1) s acc = (acc, s) := by
        simp [consumeWhileF, hp]
      rw [heq]
      exact ⟨by simpa using tracks_refl s, le_refl _⟩

theorem consumeWhileF_progress (p : Char → Bool) (hnul : p nul = false)
    (hnl : p '\n' = false) {s : LexState} (hp : p (peek s) = true)
    (fuel : Nat) (acc : String) :
    s.pos < (consumeWhileF p (fuel + 1) s acc).2.pos := by
  have hne : peek s ≠ nul := fun h => by rw [h, hnul] at hp; exact absurd hp (by simp)
  have hne' : peek s ≠ '\n' := fun h => by rw [h, hnl] at hp; exact absurd hp (by simp)
  have hstep := tracks_advance hne hne'
  have heq : consumeWhileF p (fuel + 1) s acc =
      consumeWhileF p fuel (advance s).2 (acc.push (advance s).1) := by
    simp [consumeWhileF, hp]
  obtain ⟨ht, _⟩ := consumeWhileF_tracks p hnul hnl fuel (advance s).2 (acc.push (advance s).1)
  rw [heq]
  have h₁ := hstep.2.2.1
  have h₂ := ht.2.2.1
  omega

theorem skipLineCommentF_skips :
    ∀ (fuel : Nat) (s : LexState), Skips s (skipLineCommentF fuel s) := by
  intro fuel
  induction fuel with
  | zero => intro s; exact skips_refl s
  | succ n ih =>
    intro s
    simp only [skipLineCommentF]
    by_cases hc : peek s ≠ '\n' ∧ peek s ≠ nul
    · rw [if_pos hc]
      exact skips_trans (skips_advance hc.2) (ih _)
    · rw [if_neg hc]
      exact skips_refl s

theorem skipBlockBodyF_spec :
    ∀ (fuel : Nat) (s : LexState),
      Skips s (skipBlockBodyF fuel s).2 ∧
      ((skipBlockBodyF fuel s).1 = true →
        peek (skipBlockBodyF fuel s).2 = '*' ∧
        charAt (skipBlockBodyF fuel s).2 ((skipBlockBodyF fuel s).2.pos + 1) = '/') := by
  intro fuel
  induction fuel with
  | zero =>
    intro s
    exact ⟨skips_refl s, fun h => absurd h (by simp [skipBlockBodyF])⟩
  | succ n ih =>
    intro s
    simp only [skipBlockBodyF]
    by_cases h₁ : peek s = '*' ∧ charAt s (s.pos + 1) = '/'
    · rw [if_pos h₁]
      exact ⟨skips_refl s, fun _ => h₁⟩
    · rw [if_neg h₁]
      by_cases h₂ : peek s = nul
      · rw [if_pos h₂]
        exact ⟨skips_refl s, fun h => absurd h (by simp)⟩
      · rw [if_neg h₂]
        exact ⟨skips_trans (skips_advance h₂) (ih _).1, (ih _).2⟩

theorem skipWhitespaceF_skips :
    ∀ (fuel : Nat) (s : LexState), Skips s (skipWhitespaceF fuel s) := by
  intro fuel
  induction fuel with
  | zero => intro s; exact skips_refl s
  | succ n ih =>
    intro s
    simp only [skipWhitespaceF]
    by_cases h₁ : peek s = '#' ∨ (peek s = '/' ∧ charAt s (s.pos + 1) = '/')
    · rw [if_pos h₁]
      exact skips_trans (skipLineCommentF_skips _ s) (ih _)
    · rw [if_neg h₁]
      by_cases h₂ : peek s = '/' ∧ charAt s (s.pos + 1) = '*'
      · rw [if_pos h₂]
        have hnul1 : peek s ≠ nul := by rw [h₂.1]; decide
        have hlt1 := lt_of_peek_ne_nul hnul1
        have hpk2 : peek (advance s).2 = charAt s (s.pos + 1) := peek_advance hlt1
        have hnul2 : peek (advance s).2 ≠ nul := by rw [hpk2, h₂.2]; decide
        have sk12 : Skips s (advance (advance s).2).2 :=
          skips_trans (skips_advance hnul1) (skips_advance hnul2)
        obtain ⟨skB, hB⟩ := skipBlockBodyF_spec
          ((advance (advance s).2).2.source.length + 1) (advance (advance s).2).2
        by_cases hr : (skipBlockBodyF ((advance (advance s).2).2.source.length + 1)
            (advance (advance s).2).2).1 = true
        · rw [if_pos hr]
          obtain ⟨hstar, hslash⟩ := hB hr
          have hnul3 : peek (skipBlockBodyF ((advance (advance s).2).2.source.length + 1)
              (advance (advance s).2).2).2 ≠ nul := by rw [hstar]; decide
          have hlt3 := lt_of_peek_ne_nul hnul3
          have hnul4 : peek (advance (skipBlockBodyF
              ((advance (advance s).2).2.source.length + 1)
              (advance (advance s).2).2).2).2 ≠ nul := by
            rw [peek_advance hlt3, hslash]; decide
          exact skips_trans sk12 (skips_trans skB (skips_trans (skips_advance hnul3)
            (skips_trans (skips_advance hnul4) (ih _))))
        · rw [if_neg hr]
          exact skips_trans sk12 skB
      · rw [if_neg h₂]
        by_cases h₃ : isspace (peek s) = true
        · rw [if_pos h₃]
          have hnul : peek s ≠ nul := by
            intro h
            rw [h] at h₃
            exact absurd h₃ (by decide)
          exact skips_trans (skips_advance hnul) (ih _)
        · rw [if_neg h₃]
          exact skips_refl s

theorem skipWhitespace_skips (s : LexState) : Skips s (skipWhitespace s) :=
  skipWhitespaceF_skips _ s

theorem numberFracPhase_tracks (va : String) (sa : LexState) :
    Tracks sa (numberFracPhase va sa).2.2
      ((numberFracPhase va sa).1.length - va.length) ∧
    va.length ≤ (numberFracPhase va sa).1.length := by
  by_cases h : isdigit (peek sa) = true
  · have heq : numberFracPhase va sa =
        ((consumeWhileF isdigit (sa.source.length + 1) sa va).1, false,
         (consumeWhileF isdigit (sa.source.length + 1) sa va).2) := by
      simp [numberFracPhase, h]
    rw [heq]
    exact consumeWhileF_tracks isdigit (by decide) (by decide) _ sa va
  · have h' : isdigit (peek sa) = false := by
      revert h
      cases isdigit (peek sa) <;> simp
    have heq : numberFracPhase va sa = (va, true, sa) := by
      simp [numberFracPhase, h']
    rw [heq]
    exact ⟨by simpa using tracks_refl sa, le_refl _⟩

theorem numberDotTail_tracks (frac : String × Bool × LexState) :
    Tracks frac.2.2 (numberDotTail frac).2.2.2
      ((numberDotTail frac).1.length - frac.1.length) ∧
    frac.1.length ≤ (numberDotTail frac).1.length := by
  by_cases h : peek frac.2.2 = '.'
  · have hnul : peek frac.2.2 ≠ nul := by rw [h]; decide
    have hnl : peek frac.2.2 ≠ '\n' := by rw [h]; decide
    have hdot := tracks_advance hnul hnl
    obtain ⟨ht, hl⟩ := consumeWhileF_tracks isdigit (by decide) (by decide)
      ((advance frac.2.2).2.source.length + 1) (advance frac.2.2).2
      (frac.1.push (advance frac.2.2).1)
    rw [String.length_push] at hl
    have heq : numberDotTail frac =
        ((consumeWhileF isdigit ((advance frac.2.2).2.source.length + 1)
            (advance frac.2.2).2 (frac.1.push (advance frac.2.2).1)).1,
         true, true,
         (consumeWhileF isdigit ((advance frac.2.2).2.source.length + 1)
            (advance frac.2.2).2 (frac.1.push (advance frac.2.2).1)).2) := by
      simp only [numberDotTail]
      rw [if_pos h]
    rw [heq]
    constructor
    · refine tracks_congr (tracks_trans hdot ht) ?_
      dsimp only
      simp only [String.length_push]
      omega
    · dsimp only
      omega
  · have heq : numberDotTail frac = (frac.1, true, frac.2.1, frac.2.2) := by
      simp only [numberDotTail]
      rw [if_neg h]
    rw [heq]
    exact ⟨by simpa using tracks_refl frac.2.2, le_refl _⟩

theorem numberDotPhase_tracks (v : String) (s₁ : LexState) :
    Tracks s₁ (numberDotPhase v s₁).2.2.2
      ((numberDotPhase v s₁).1.length - v.length) ∧
    v.length ≤ (numberDotPhase v s₁).1.length := by
  by_cases h : peek s₁ = '.'
  case neg =>
    have heq : numberDotPhase v s₁ = (v, false, false, s₁) := by
      simp only [numberDotPhase]
      rw [if_neg h]
    rw [heq]
    exact ⟨by simpa using tracks_refl s₁, le_refl _⟩
  case pos =>
    have hnul : peek s₁ ≠ nul := by rw [h]; decide
    have hnl : peek s₁ ≠ '\n' := by rw [h]; decide
    have hdot := tracks_advance hnul hnl
    obtain ⟨htf, hlf⟩ := numberFracPhase_tracks (v.push (advance s₁).1) (advance s₁).2
    rw [String.length_push] at hlf
    obtain ⟨htt, hlt⟩ :=
      numberDotTail_tracks (numberFracPhase (v.push (advance s₁).1) (advance s₁).2)
    have heq : numberDotPhase v s₁ =
        numberDotTail (numberFracPhase (v.push (advance s₁).1) (advance s₁).2) := by
      simp only [numberDotPhase]
      rw [if_pos h]
    rw [heq]
    constructor
    · refine tracks_congr (tracks_trans hdot (tracks_trans htf htt)) ?_
      simp only [String.length_push] at hlt ⊢
      omega
    · omega

theorem numberSuffixPhase_tracks (v : String) (e : Bool) (s₂ : LexState) :
    Tracks s₂ (numberSuffixPhase v e s₂).2.2
      ((numberSuffixPhase v e s₂).1.length - v.length) ∧
    v.length ≤ (numberSuffixPhase v e s₂).1.length := by
  by_cases h : isalpha (peek s₂) = true ∨ peek s₂ = '_'
  · have heq : numberSuffixPhase v e s₂ =
        ((consumeWhileF (fun c => isalnum c || c = '_') (s₂.source.length + 1) s₂ v).1,
         true,
         (consumeWhileF (fun c => isalnum c || c = '_') (s₂.source.length + 1) s₂ v).2) := by
      simp only [numberSuffixPhase]
      rw [if_pos h]
    rw [heq]
    exact consumeWhileF_tracks _ (by decide) (by decide) _ s₂ v
  · have heq : numberSuffixPhase v e s₂ = (v, e, s₂) := by
      simp only [numberSuffixPhase]
      rw [if_neg h]
    rw [heq]
    exact ⟨by simpa using tracks_refl s₂, le_refl _⟩

theorem isalpha_not_isdigit {c : Char} (h : isalpha c = true) :
    isdigit c = false := by
  unfold isalpha at h
  unfold isdigit
  simp only [Bool.or_eq_true, Bool.and_eq_true, decide_eq_true_eq] at h
  simp only [Bool.and_eq_false_iff, decide_eq_false_iff_not]
  omega

theorem mem_single_keys_ne {c : Char}
    (h : String.singleton c ∈ operatorKeys ∨ String.singleton c ∈ separatorKeys) :
    c ≠ nul ∧ c ≠ '\n' := by
  constructor <;> rintro rfl <;> revert h <;> decide

theorem key2_props {w : String}
    (hmem : w ∈ operatorKeys ∨ w ∈ bitOperatorKeys) (hlen : w.data.length = 2) :
    w.data.getD 1 nul ≠ nul ∧ w.data.getD 1 nul ≠ '\n' := by
  rcases hmem with h | h <;> fin_cases h <;> revert hlen <;> decide

theorem recognizeIdOrKeyword_spec {s : LexState}
    (hguard : isalpha (peek s) = true ∨ peek s = '_') :
    (recognizeIdOrKeyword s).2.source = s.source ∧
    s.pos < (recognizeIdOrKeyword s).2.pos ∧
    (WF s → WF (recognizeIdOrKeyword s).2) ∧
    (WF s → ((recognizeIdOrKeyword s).1.line, (recognizeIdOrKeyword s).1.column) =
      lineColAt s.source s.pos) := by
  have hnd : isdigit (peek s) = false := by
    rcases hguard with h | h
    · exact isalpha_not_isdigit h
    · rw [h]; decide
  have hp : (fun c => isalnum c || c = '_') (peek s) = true := by
    rcases hguard with h | h
    · simp [isalnum, h]
    · simp [h]
  obtain ⟨ht, hl⟩ := consumeWhileF_tracks (fun c => isalnum c || c = '_')
    (by decide) (by decide) (s.source.length + 1) s ""
  have hprog := consumeWhileF_progress (fun c => isalnum c || c = '_')
    (by decide) (by decide) hp s.source.length ""
  set R := consumeWhileF (fun c => isalnum c || c = '_') (s.source.length + 1) s ""
    with hR
  have h0 : ("" : String).length = 0 := rfl
  rw [h0, Nat.sub_zero] at ht
  have hfields : (recognizeIdOrKeyword s).2 = R.2 ∧
      (recognizeIdOrKeyword s).1.line = R.2.line ∧
      (recognizeIdOrKeyword s).1.column = R.2.column - R.1.length := by
    simp only [recognizeIdOrKeyword, hnd, Bool.false_eq_true, if_false, ← hR]
    cases keywordLookup R.1 <;> simp [makeToken]
  obtain ⟨hf2, hfl, hfc⟩ := hfields
  obtain ⟨hsrc, hline, hpos, hcol, hwf⟩ := ht
  refine ⟨by rw [hf2]; exact hsrc, by rw [hf2]; exact hprog,
    fun hWF => by rw [hf2]; exact hwf hWF, fun hWF => ?_⟩
  rw [hfl, hfc, hline, hcol, ← hWF]
  simp

theorem recognizeNumber_spec {s : LexState} (hguard : isdigit (peek s) = true) :
    (recognizeNumber s).2.source = s.source ∧
    s.pos < (recognizeNumber s).2.pos ∧
    (WF s → WF (recognizeNumber s).2) ∧
    (WF s → (recognizeNumber s).1.type ≠ TOKEN_ERROR →
      ((recognizeNumber s).1.line, (recognizeNumber s).1.column) =
        lineColAt s.source s.pos) := by
  obtain ⟨ht1, hl1⟩ := consumeWhileF_tracks isdigit (by decide) (by decide)
    (s.source.length + 1) s ""
  have hprog := consumeWhileF_progress isdigit (by decide) (by decide) hguard
    s.source.length ""
  set R := consumeWhileF isdigit (s.source.length + 1) s "" with hR
  have h0 : ("" : String).length = 0 := rfl
  rw [h0, Nat.sub_zero] at ht1
  obtain ⟨ht2, hl2⟩ := numberDotPhase_tracks R.1 R.2
  set M := numberDotPhase R.1 R.2 with hM
  obtain ⟨ht3, hl3⟩ := numberSuffixPhase_tracks M.1 M.2.2.1 M.2.2.2
  set F := numberSuffixPhase M.1 M.2.2.1 M.2.2.2 with hF
  have htot : Tracks s F.2.2 F.1.length := by
    refine tracks_congr (tracks_trans ht1 (tracks_trans ht2 ht3)) ?_
    omega
  have hprog' : s.pos < F.2.2.pos := by
    have p1 := ht2.2.2.1
    have p2 := ht3.2.2.1
    omega
  have heq : recognizeNumber s =
      if F.2.1 then (makeError F.2.2 ("非法数字格式: " ++ F.1), F.2.2)
      else (makeToken F.2.2 (if M.2.1 then TOKEN_FLOAT else TOKEN_NUM) F.1, F.2.2) := by
    simp only [recognizeNumber, ← hR, ← hM, ← hF]
  rw [heq]
  obtain ⟨hsrc, hline, hpos, hcol, hwf⟩ := htot
  by_cases hE : F.2.1 = true
  · rw [if_pos hE]
    dsimp only
    refine ⟨hsrc, hprog', fun hWF => hwf hWF, fun _ hty => ?_⟩
    exact absurd rfl hty
  · rw [if_neg hE]
    dsimp only
    refine ⟨hsrc, hprog', fun hWF => hwf hWF, fun hWF _ => ?_⟩
    simp only [makeToken]
    rw [hline, hcol, ← hWF]
    simp

theorem recognizeOpOrSep_spec {s : LexState}
    (hguard : String.singleton (peek s) ∈ operatorKeys ∨
      String.singleton (peek s) ∈ separatorKeys) :
    (recognizeOpOrSep s).2.source = s.source ∧
    s.pos < (recognizeOpOrSep s).2.pos ∧
    (WF s → WF (recognizeOpOrSep s).2) ∧
    (WF s → (recognizeOpOrSep s).1.type ≠ TOKEN_ERROR →
      ((recognizeOpOrSep s).1.line, (recognizeOpOrSep s).1.column) =
        lineColAt s.source s.pos) := by
  obtain ⟨hcnul, hcnl⟩ := mem_single_keys_ne hguard
  have ht1 : Tracks s (advance s).2 1 := tracks_advance hcnul hcnl
  have hc : (advance s).1 = peek s := advance_fst s
  by_cases hd : (String.singleton (advance s).1).push (peek (advance s).2) ∈ operatorKeys ∨
      (String.singleton (advance s).1).push (peek (advance s).2) ∈ bitOperatorKeys
  · have hdata : ((String.singleton (advance s).1).push (peek (advance s).2)).data =
        [(advance s).1, peek (advance s).2] := by
      simp
    have hlen2 : ((String.singleton (advance s).1).push (peek (advance s).2)).data.length = 2 := by
      rw [hdata]
      rfl
    obtain ⟨hdnul, hdnl⟩ := key2_props hd hlen2
    rw [hdata] at hdnul hdnl
    have hdnul' : peek (advance s).2 ≠ nul := hdnul
    have hdnl' : peek (advance s).2 ≠ '\n' := hdnl
    have ht2 : Tracks (advance s).2 (advance (advance s).2).2 1 :=
      tracks_advance hdnul' hdnl'
    have htot : Tracks s (advance (advance s).2).2 2 :=
      tracks_congr (tracks_trans ht1 ht2) rfl
    have heq : recognizeOpOrSep s =
        (makeToken (advance (advance s).2).2
          (if (String.singleton (advance s).1).push (peek (advance s).2) ∈ operatorKeys
           then TOKEN_OP else TOKEN_BIT_OP)
          ((String.singleton (advance s).1).push (advance (advance s).2).1),
         (advance (advance s).2).2) := by
      simp only [recognizeOpOrSep]
      rw [if_pos hd]
    rw [heq]
    dsimp only
    obtain ⟨hsrc, hline, hpos, hcol, hwf⟩ := htot
    have hvlen : ((String.singleton (advance s).1).push (advance (advance s).2).1).length = 2 := by
      simp [String.length_push]
    refine ⟨hsrc, by omega, fun hWF => hwf hWF, fun hWF _ => ?_⟩
    simp only [makeToken]
    rw [hvlen, hline, hcol, ← hWF]
    simp
  · have hvlen : (String.singleton (advance s).1).length = 1 := rfl
    obtain ⟨hsrc, hline, hpos, hcol, hwf⟩ := ht1
    have hfin : ∀ t : TokenType,
        ((makeToken (advance s).2 t (String.singleton (advance s).1)).line,
         (makeToken (advance s).2 t (String.singleton (advance s).1)).column) =
          (s.line, s.column) := by
      intro t
      simp only [makeToken]
      rw [hvlen, hline, hcol]
      simp
    have heq : recognizeOpOrSep s =
        (if String.singleton (advance s).1 ∈ operatorKeys then
          (makeToken (advance s).2 TOKEN_OP (String.singleton (advance s).1), (advance s).2)
         else if String.singleton (advance s).1 ∈ bitOperatorKeys then
          (makeToken (advance s).2 TOKEN_BIT_OP (String.singleton (advance s).1), (advance s).2)
         else if String.singleton (advance s).1 ∈ separatorKeys then
          (makeToken (advance s).2 TOKEN_SEP (String.singleton (advance s).1), (advance s).2)
         else
          (makeError (advance s).2 ("无法识别的符号: " ++ String.singleton (advance s).1),
           (advance s).2)) := by
      simp only [recognizeOpOrSep]
      rw [if_neg hd]
    rw [heq]
    by_cases m1 : String.singleton (advance s).1 ∈ operatorKeys
    · rw [if_pos m1]
      dsimp only
      exact ⟨hsrc, by omega, fun hWF => hwf hWF,
        fun hWF _ => by rw [hfin TOKEN_OP, ← hWF]⟩
    · rw [if_neg m1]
      by_cases m2 : String.singleton (advance s).1 ∈ bitOperatorKeys
      · rw [if_pos m2]
        dsimp only
        exact ⟨hsrc, by omega, fun hWF => hwf hWF,
          fun hWF _ => by rw [hfin TOKEN_BIT_OP, ← hWF]⟩
      · rw [if_neg m2]
        by_cases m3 : String.singleton (advance s).1 ∈ separatorKeys
        · rw [if_pos m3]
          dsimp only
          exact ⟨hsrc, by omega, fun hWF => hwf hWF,
            fun hWF _ => by rw [hfin TOKEN_SEP, ← hWF]⟩
        · rw [if_neg m3]
          dsimp only
          exact ⟨hsrc, by omega, fun hWF => hwf hWF,
            fun _ hty => absurd rfl hty⟩

theorem getNextToken_spec (s₀ : LexState) (hWF : WF s₀) :
    (getNextToken s₀).2.source = s₀.source ∧
    WF (getNextToken s₀).2 ∧
    ((getNextToken s₀).1.type ≠ TOKEN_ERROR →
      ((getNextToken s₀).1.line, (getNextToken s₀).1.column) =
        lineColAt s₀.source (skipWhitespace s₀).pos) := by
  obtain ⟨hsrc, hpos, hwfp⟩ := skipWhitespace_skips s₀
  have hWF1 : WF (skipWhitespace s₀) := hwfp hWF
  set s := skipWhitespace s₀ with hs
  by_cases h1 : (isalpha (peek s) || peek s = '_') = true
  · have heq : getNextToken s₀ = recognizeIdOrKeyword s := by
      simp only [getNextToken, ← hs]
      rw [if_pos h1]
    rw [heq]
    have hg : isalpha (peek s) = true ∨ peek s = '_' := by
      simpa [Bool.or_eq_true, decide_eq_true_eq] using h1
    obtain ⟨a, b, c, d⟩ := recognizeIdOrKeyword_spec hg
    refine ⟨a.trans hsrc, c hWF1, fun hty => ?_⟩
    rw [d hWF1, hsrc]
  · by_cases h2 : isdigit (peek s) = true
    · have heq : getNextToken s₀ = recognizeNumber s := by
        simp only [getNextToken, ← hs]
        rw [if_neg h1, if_pos h2]
      rw [heq]
      obtain ⟨a, b, c, d⟩ := recognizeNumber_spec h2
      refine ⟨a.trans hsrc, c hWF1, fun hty => ?_⟩
      rw [d hWF1 hty, hsrc]
    · by_cases h3 : String.singleton (peek s) ∈ operatorKeys ∨
          String.singleton (peek s) ∈ separatorKeys
      · have heq : getNextToken s₀ = recognizeOpOrSep s := by
          simp only [getNextToken, ← hs]
          rw [if_neg h1, if_neg h2, if_pos h3]
        rw [heq]
        obtain ⟨a, b, c, d⟩ := recognizeOpOrSep_spec h3
        refine ⟨a.trans hsrc, c hWF1, fun hty => ?_⟩
        rw [d hWF1 hty, hsrc]
      · by_cases h4 : peek s = nul
        · have heq : getNextToken s₀ = (⟨TOKEN_ERROR, "", 0, 0⟩, s) := by
            simp only [getNextToken, ← hs]
            rw [if_neg h1, if_neg h2, if_neg h3, if_pos h4]
          rw [heq]
          exact ⟨hsrc, hWF1, fun hty => absurd rfl hty⟩
        · have heq : getNextToken s₀ =
              (⟨TOKEN_ERROR, "非法字符: " ++ String.singleton (peek s), 0, 0⟩,
               (advance s).2) := by
            simp only [getNextToken, ← hs]
            rw [if_neg h1, if_neg h2, if_neg h3, if_neg h4]
          rw [heq]
          have hlt := lt_of_peek_ne_nul h4
          exact ⟨(advance_source s).trans hsrc, advance_wf hlt hWF1,
            fun hty => absurd rfl hty⟩

theorem getNextToken_progress (s₀ : LexState) :
    (getNextToken s₀).1 = ⟨TOKEN_ERROR, "", 0, 0⟩ ∨
    s₀.pos < (getNextToken s₀).2.pos := by
  obtain ⟨hsrc, hpos, _⟩ := skipWhitespace_skips s₀
  set s := skipWhitespace s₀ with hs
  by_cases h1 : (isalpha (peek s) || peek s = '_') = true
  · right
    have heq : getNextToken s₀ = recognizeIdOrKeyword s := by
      simp only [getNextToken, ← hs]
      rw [if_pos h1]
    rw [heq]
    have hg : isalpha (peek s) = true ∨ peek s = '_' := by
      simpa [Bool.or_eq_true, decide_eq_true_eq] using h1
    have := (recognizeIdOrKeyword_spec hg).2.1
    omega
  · by_cases h2 : isdigit (peek s) = true
    · right
      have heq : getNextToken s₀ = recognizeNumber s := by
        simp only [getNextToken, ← hs]
        rw [if_neg h1, if_pos h2]
      rw [heq]
      have := (recognizeNumber_spec h2).2.1
      omega
    · by_cases h3 : String.singleton (peek s) ∈ operatorKeys ∨
          String.singleton (peek s) ∈ separatorKeys
      · right
        have heq : getNextToken s₀ = recognizeOpOrSep s := by
          simp only [getNextToken, ← hs]
          rw [if_neg h1, if_neg h2, if_pos h3]
        rw [heq]
        have := (recognizeOpOrSep_spec h3).2.1
        omega
      · by_cases h4 : peek s = nul
        · left
          have heq : getNextToken s₀ = (⟨TOKEN_ERROR, "", 0, 0⟩, s) := by
            simp only [getNextToken, ← hs]
            rw [if_neg h1, if_neg h2, if_neg h3, if_pos h4]
          rw [heq]
        · right
          have heq : getNextToken s₀ =
              (⟨TOKEN_ERROR, "非法字符: " ++ String.singleton (peek s), 0, 0⟩,
               (advance s).2) := by
            simp only [getNextToken, ← hs]
            rw [if_neg h1, if_neg h2, if_neg h3, if_neg h4]
          rw [heq]
          have hlt := lt_of_peek_ne_nul h4
          have := advance_pos_of_lt hlt
          dsimp only
          omega

theorem tokenizeAuxF_positions :
    ∀ (fuel : Nat) (s : LexState), WF s →
      ∀ (n : Nat) (t : Token), (n, t) ∈ tokenizeAuxF fuel s →
        t.type ≠ TOKEN_ERROR → (t.line, t.column) = lineColAt s.source n := by
  intro fuel
  induction fuel with
  | zero =>
    intro s _ n t hmem
    exact absurd hmem (by simp [tokenizeAuxF])
  | succ m ih =>
    intro s hWF n t hmem hty
    obtain ⟨hsrc, hWF', hposeq⟩ := getNextToken_spec s hWF
    by_cases hstop : (getNextToken s).1.type = TOKEN_ERROR ∧ (getNextToken s).1.value = ""
    · have heq : tokenizeAuxF (m + 1) s = [] := by
        simp only [tokenizeAuxF]
        rw [if_pos hstop]
      rw [heq] at hmem
      exact absurd hmem (by simp)
    · have heq : tokenizeAuxF (m + 1) s =
          ((skipWhitespace s).pos, (getNextToken s).1) ::
            tokenizeAuxF m (getNextToken s).2 := by
        simp only [tokenizeAuxF]
        rw [if_neg hstop]
      rw [heq] at hmem
      rcases List.mem_cons.mp hmem with hhead | htail
      · have hn : n = (skipWhitespace s).pos := congrArg Prod.fst hhead
        have ht : t = (getNextToken s).1 := congrArg Prod.snd hhead
        rw [hn, ht]
        exact hposeq (ht ▸ hty)
      · have := ih (getNextToken s).2 hWF' n t htail hty
        rw [hsrc] at this
        exact this

/-- C5 (amended).  For every input and every emitted token other than
LexError tokens, the token's recorded (line, column) pair equals the 1-based
line and column — computed from the raw source by `lineColAt`, with newlines
in skipped comments and whitespace advancing the line and resetting the
column — of the scan index `n` at which the token's recognition began, i.e.
of the first character of its lexeme.  (LexError tokens had to be exempted:
`makeError` records the cursor after the lexeme and the illegal-character
token records (0, 0).) -/
theorem c5_nonerror_token_positions (src : List Char) (n : Nat) (t : Token)
    (hmem : (n, t) ∈ tokenize src) (hty : t.type ≠ TOKEN_ERROR) :
    (t.line, t.column) = lineColAt src n := by
  have hWF0 : WF ⟨src, 0, 1, 1⟩ := rfl
  exact tokenizeAuxF_positions (src.length + 1) ⟨src, 0, 1, 1⟩ hWF0 n t hmem hty

/-- Witness for C5 (amended) at the concrete input `ab`. -/
theorem c5_nonerror_token_positions_witness :
    ((1 : Nat), (1 : Nat)) = lineColAt "ab".toList 0 :=
  c5_nonerror_token_positions "ab".toList 0 ⟨TOKEN_ID, "ab", 1, 1⟩
    (by decide) (by decide)

/-- C5 counterexample.  Scanning `12a` emits one LexError token whose
recorded position is (1, 4) — the cursor after the lexeme, as `makeError`
computes it — while the first character of its lexeme is at (1, 1): the
claim's "including LexError tokens" fails. -/
theorem c5_lexerror_position_counterexample :
    tokenize "12a".toList =
      [(0, ⟨TOKEN_ERROR, "非法数字格式: 12a at line 1:4", 1, 4⟩)] ∧
    lineColAt "12a".toList 0 = (1, 1) ∧
    ¬(((1 : Nat), (4 : Nat)) = ((1 : Nat), (1 : Nat))) := by
  refine ⟨by decide, by decide, by decide⟩

/-- C4 counterexample.  A lone `~` is dispatched to the illegal-character
branch of `getNextToken` (the dispatch consults only the operator and
separator tables, never the bitwise table), and a lone `&` matches the
1-character operator table first: neither is emitted as a BitwiseOperator
token, contradicting the claim's parenthetical. -/
theorem c4_lone_bitwise_chars_counterexample :
    tokenize "~".toList = [(0, ⟨TOKEN_ERROR, "非法字符: ~", 0, 0⟩)] ∧
    tokenize "&".toList = [(0, ⟨TOKEN_OP, "&", 1, 1⟩)] ∧
    TOKEN_ERROR ≠ TOKEN_BIT_OP ∧ TOKEN_OP ≠ TOKEN_BIT_OP := by
  refine ⟨by decide, by decide, by decide, by decide⟩

/-- C4 (amended).  When no 2-character entry matches, `recognizeOpOrSep`
falls back to the 1-character operator, bitwise, separator tables in that
order, but `getNextToken` dispatches to it only for characters present in the
operator or separator tables: a lone `~` or `^` is emitted as an
illegal-character LexError with scanning advancing past it; a lone `&` or `|`
is an Operator token (operator table first); `<<` is a BitwiseOperator via
the 2-character lookahead; `<` an Operator and `;` a Separator via the
1-character fallbacks; a character in no table (`@`) is a LexError with
scanning advancing past it. -/
theorem c4_fallback_dispatch_behavior :
    tokenize "~;".toList =
      [(0, ⟨TOKEN_ERROR, "非法字符: ~", 0, 0⟩), (1, ⟨TOKEN_SEP, ";", 1, 2⟩)] ∧
    tokenize "^".toList = [(0, ⟨TOKEN_ERROR, "非法字符: ^", 0, 0⟩)] ∧
    tokenize "&".toList = [(0, ⟨TOKEN_OP, "&", 1, 1⟩)] ∧
    tokenize "|".toList = [(0, ⟨TOKEN_OP, "|", 1, 1⟩)] ∧
    tokenize "<<".toList = [(0, ⟨TOKEN_BIT_OP, "<<", 1, 1⟩)] ∧
    tokenize "+=".toList = [(0, ⟨TOKEN_OP, "+=", 1, 1⟩)] ∧
    tokenize "<".toList = [(0, ⟨TOKEN_OP, "<", 1, 1⟩)] ∧
    tokenize ";".toList = [(0, ⟨TOKEN_SEP, ";", 1, 1⟩)] ∧
    tokenize "@;".toList =
      [(0, ⟨TOKEN_ERROR, "非法字符: @", 0, 0⟩), (1, ⟨TOKEN_SEP, ";", 1, 2⟩)] := by
  refine ⟨by decide, by decide, by decide, by decide, by decide, by decide,
    by decide, by decide, by decide⟩

/-- C6.  Scanning `12abc` emits exactly one LexError token covering the
whole run, and so does `1.2.3`; after a LexError the scanner resumes and
produces the subsequent tokens normally (shown concretely on `12abc+7`, and
in general: `getNextToken` is total and either returns the end sentinel or
strictly advances the scan position, so lexical errors are never fatal). -/
theorem c6_lexical_errors_single_token_and_resume :
    tokenize "12abc".toList =
      [(0, ⟨TOKEN_ERROR, "非法数字格式: 12abc at line 1:6", 1, 6⟩)] ∧
    tokenize "1.2.3".toList =
      [(0, ⟨TOKEN_ERROR, "非法数字格式: 1.2.3 at line 1:6", 1, 6⟩)] ∧
    tokenize "12abc+7".toList =
      [(0, ⟨TOKEN_ERROR, "非法数字格式: 12abc at line 1:6", 1, 6⟩),
       (5, ⟨TOKEN_OP, "+", 1, 6⟩), (6, ⟨TOKEN_NUM, "7", 1, 7⟩)] ∧
    ∀ s : LexState, (getNextToken s).1 = ⟨TOKEN_ERROR, "", 0, 0⟩ ∨
      s.pos < (getNextToken s).2.pos := by
  refine ⟨by decide, by decide, by decide, getNextToken_progress⟩

end Lex

end TextLexer
